import Mathlib

/-!
Verification of the rule-evaluation engine of `SD23035_LAB3.py`
(condition evaluator, rule matching, priority-based selection).

Modelling choices for the shallow embedding:
* Python scalar values (numbers, strings, booleans) and list literals are
  modelled by the inductive type `Value`.  Numbers are modelled as exact
  rationals (`ℚ`); every numeric comparison appearing in the rules and
  scenarios gives the same verdict for IEEE doubles and for the exact
  rationals, since all literals are within the range where the ordering of
  the nearest doubles agrees with the ordering of the rationals.
* A Python expression that may raise (`a < b` on incompatible types,
  `a in b` on a non-container) is modelled as an `Option Bool`, with
  `Option.none` standing for the raised `TypeError`.  The `try/except`
  in `evaluate_condition` corresponds to `Option.getD false`.
* A Python dict is modelled as an association list with first-match
  lookup (dict keys are unique, so this is the key→value map of the dict).
* `sorted(fired, key=lambda r: r.get("priority", 0), reverse=True)` is a
  stable descending sort by the key `priority or 0`; it is modelled by the
  stable insertion sort `sortDesc` (any two stable sorts of the same list
  by the same key coincide).
-/

namespace RuleEngine

/-- A JSON-like Python value: number (exact rational), string, boolean,
or list of values. -/
inductive Value where
  | num (q : ℚ)
  | str (s : String)
  | bool (b : Bool)
  | list (vs : List Value)

/-- Lexicographic comparison of char lists by code point — Python string `<`. -/
def charsLt : List Char → List Char → Bool
  | [], [] => false
  | [], _ :: _ => true
  | _ :: _, [] => false
  | c :: cs, d :: ds => c.toNat < d.toNat || (c == d && charsLt cs ds)

/-- Does `s` start with `p`?  (Python `t.startswith(p)` on char lists.) -/
def charsStartWith : List Char → List Char → Bool
  | _, [] => true
  | [], _ :: _ => false
  | c :: cs, d :: ds => c == d && charsStartWith cs ds

/-- Does `p` occur contiguously in `t`?  (Python `p in t` for strings.) -/
def charsContainSub : List Char → List Char → Bool
  | [], p => p.isEmpty
  | c :: cs, p => charsStartWith (c :: cs) p || charsContainSub cs p

mutual

/-- Python `==` on values (`operator.eq`): numeric equality across
num/bool (True == 1 in Python), structural equality on strings and lists,
`False` across unrelated types.  Never raises. -/
def pyEq : Value → Value → Bool
  | Value.num a, Value.num b => decide (a = b)
  | Value.num a, Value.bool b => decide (a = (if b then (1 : ℚ) else 0))
  | Value.bool a, Value.num b => decide ((if a then (1 : ℚ) else 0) = b)
  | Value.bool a, Value.bool b => a == b
  | Value.str a, Value.str b => a == b
  | Value.list a, Value.list b => pyEqList a b
  | _, _ => false

/-- Python `==` on lists: pointwise, same length. -/
def pyEqList : List Value → List Value → Bool
  | [], [] => true
  | x :: xs, y :: ys => pyEq x y && pyEqList xs ys
  | _, _ => false

end

mutual

/-- Python `<` on values (`operator.lt`): numeric order across num/bool,
code-point order on strings, lexicographic order on lists;
`Option.none` models the `TypeError` raised on incompatible types. -/
def pyLt : Value → Value → Option Bool
  | Value.num a, Value.num b => some (decide (a < b))
  | Value.num a, Value.bool b => some (decide (a < (if b then (1 : ℚ) else 0)))
  | Value.bool a, Value.num b => some (decide ((if a then (1 : ℚ) else 0) < b))
  | Value.bool a, Value.bool b => !a && b
  | Value.str a, Value.str b => some (charsLt a.data b.data)
  | Value.list a, Value.list b => pyLtList a b
  | _, _ => Option.none

/-- Python `<` on lists: skip equal heads, compare the first differing
pair, fall back to length comparison. -/
def pyLtList : List Value → List Value → Option Bool
  | [], [] => some false
  | [], _ :: _ => some true
  | _ :: _, [] => some false
  | x :: xs, y :: ys => if pyEq x y then pyLtList xs ys else pyLt x y

end

/-- Python `a in b`: membership via `==` when `b` is a list, substring
test when both are strings; `Option.none` models the `TypeError` raised
when `b` is not a container (or `b` is a string and `a` is not). -/
def pyIn (a b : Value) : Option Bool :=
  match b with
  | Value.list vs => some (vs.any (fun v => pyEq v a))
  | Value.str t =>
    match a with
    | Value.str s => some (charsContainSub t.data s.data)
    | _ => Option.none
  | _ => Option.none

/-- The operator registry `OPS` of the source: a dict from operator symbol
to binary predicate.  The reflected comparisons of Python for built-in types
give `a > b ↔ b < a`, `a >= b ↔ ¬(a < b)` and `a <= b ↔ ¬(b < a)` (the
comparable pairs are totally ordered), raising in exactly the same cases. -/
def OPS : List (String × (Value → Value → Option Bool)) :=
  [("==", fun a b => some (pyEq a b)),
   ("!=", fun a b => some (!(pyEq a b))),
   (">", fun a b => pyLt b a),
   (">=", fun a b => (pyLt a b).map (fun x => !x)),
   ("<", fun a b => pyLt a b),
   ("<=", fun a b => (pyLt b a).map (fun x => !x)),
   ("in", fun a b => pyIn a b),
   ("not_in", fun a b => (pyIn a b).map (fun x => !x))]

/-- A fact set: the items of the Python dict `facts` (string keys are
unique, lookup takes the first match). -/
def Facts := List (String × Value)

/-- Python `facts[field]` guarded lookup: a dict with string keys contains
a key equal to `field` only when `field` is that string. -/
def factLookup (facts : Facts) : Value → Option Value
  | Value.str f => List.lookup f facts
  | _ => Option.none

/-- Python `OPS[op]` guarded lookup: only string keys are present. -/
def opLookup : Value → Option (Value → Value → Option Bool)
  | Value.str o => List.lookup o OPS
  | _ => Option.none

/-- `evaluate_condition(facts, cond)` of the source: `False` unless `cond`
is a 3-element list `[field, op, value]` with `field` a key of `facts` and
`op` a key of `OPS`; then the operator is applied, with a raised
`TypeError` (the `Option.none` case) caught and turned into `False`. -/
def evaluate_condition (facts : Facts) (cond : List Value) : Bool :=
  match cond with
  | [field, op, value] =>
    match factLookup facts field, opLookup op with
    | some fv, some opf => (opf fv value).getD false
    | _, _ => false
  | _ => false

/-- The action object of a rule `{decision, reason}`. -/
structure Action where
  decision : String
  reason : String
deriving DecidableEq

/-- A rule object.  Per the engine contract of the spec a rule is a dict with
optional `conditions`, `priority` and `action` fields (absence modelled by
`Option.none`, mirroring `rule.get(...)` in the source). -/
structure Rule where
  name : String := ""
  priority : Option Int := Option.none
  conditions : Option (List (List Value)) := Option.none
  action : Option Action := Option.none

/-- `rule_matches(facts, rule)` of the source:
`all(evaluate_condition(facts, c) for c in rule.get("conditions", []))`. -/
def rule_matches (facts : Facts) (rule : Rule) : Bool :=
  (rule.conditions.getD []).all (fun c => evaluate_condition facts c)

/-- The sort key `r.get("priority", 0)` of the source. -/
def priorityKey (r : Rule) : Int := r.priority.getD 0

/-- Insert `r` into `l` before the first element whose key is ≤ the key of `r`
(elements already in `l` come from later input positions, so on ties `r`
stays first). -/
def insertDesc (r : Rule) : List Rule → List Rule
  | [] => [r]
  | y :: ys =>
    if priorityKey y ≤ priorityKey r then r :: y :: ys else y :: insertDesc r ys

/-- Stable descending insertion sort by `priorityKey` — the model of
`sorted(fired, key=lambda r: r.get("priority", 0), reverse=True)`. -/
def sortDesc : List Rule → List Rule
  | [] => []
  | x :: xs => insertDesc x (sortDesc xs)

/-- `run_rules(facts, rules)` of the source. -/
def run_rules (facts : Facts) (rules : List Rule) : Action × List Rule :=
  let fired := rules.filter (fun r => rule_matches facts r)
  if fired.isEmpty then
    (⟨"NO_RULE", "No rules matched"⟩, [])
  else
    let fired_sorted := sortDesc fired
    match fired_sorted with
    | best :: _ => (best.action.getD ⟨"NO_ACTION", "-"⟩, fired_sorted)
    | [] => (⟨"NO_ACTION", "-"⟩, [])

/-- The default scholarship rule set `DEFAULT_RULES` of the source
(decimal literals such as `3.7` are the exact rationals `mkRat 37 10`). -/
def topMeritRule : Rule :=
  { name := "Top merit candidate", priority := some 100,
    conditions := some
      [[Value.str "cgpa", Value.str ">=", Value.num (mkRat 37 10)],
       [Value.str "co_curricular_score", Value.str ">=", Value.num 80],
       [Value.str "family_income", Value.str "<=", Value.num 8000],
       [Value.str "disciplinary_actions", Value.str "==", Value.num 0]],
    action := some ⟨"AWARD_FULL",
      "Excellent academic & co-curricular performance, with acceptable need"⟩ }

/-- Second default rule: partial scholarship. -/
def goodCandidateRule : Rule :=
  { name := "Good candidate - partial scholarship", priority := some 80,
    conditions := some
      [[Value.str "cgpa", Value.str ">=", Value.num (mkRat 33 10)],
       [Value.str "co_curricular_score", Value.str ">=", Value.num 60],
       [Value.str "family_income", Value.str "<=", Value.num 12000],
       [Value.str "disciplinary_actions", Value.str "<=", Value.num 1]],
    action := some ⟨"AWARD_PARTIAL",
      "Good academic & involvement record with moderate need"⟩ }

/-- Third default rule: need-based review. -/
def needBasedRule : Rule :=
  { name := "Need-based review", priority := some 70,
    conditions := some
      [[Value.str "cgpa", Value.str ">=", Value.num (mkRat 25 10)],
       [Value.str "family_income", Value.str "<=", Value.num 4000]],
    action := some ⟨"REVIEW", "High need but borderline academic score"⟩ }

/-- Fourth default rule: low CGPA rejection. -/
def lowCgpaRule : Rule :=
  { name := "Low CGPA – not eligible", priority := some 95,
    conditions := some
      [[Value.str "cgpa", Value.str "<", Value.num (mkRat 25 10)]],
    action := some ⟨"REJECT", "CGPA below minimum scholarship requirement"⟩ }

/-- Fifth default rule: disciplinary rejection. -/
def disciplinaryRule : Rule :=
  { name := "Serious disciplinary record", priority := some 90,
    conditions := some
      [[Value.str "disciplinary_actions", Value.str ">=", Value.num 2]],
    action := some ⟨"REJECT", "Too many disciplinary records"⟩ }

/-- `DEFAULT_RULES` of the source, in source order. -/
def DEFAULT_RULES : List Rule :=
  [topMeritRule, goodCandidateRule, needBasedRule, lowCgpaRule, disciplinaryRule]

/-- The fact set of Scenario 4 of the spec:
`{cgpa: 3.9, family_income: 2000, co_curricular_score: 90, disciplinary_actions: 3}`. -/
def scenario4Facts : Facts :=
  [("cgpa", Value.num (mkRat 39 10)), ("family_income", Value.num 2000),
   ("co_curricular_score", Value.num 90), ("disciplinary_actions", Value.num 3)]

/-!
Exception-transparent variant of the engine.  Python statements that can
raise are threaded through `Except String`.  Two raise sites exist in the
engine: the membership guard `if field not in facts or op not in OPS`
hashes its key and therefore raises an uncaught `TypeError` when the
field or operator slot holds an unhashable value (a list) — this line
precedes the `try`, and the `or` short-circuits, so the operator slot is
only hashed when the field test came out false; and the body of the
`try`, `OPS[op](facts[field], value)`, whose every exception the bare
`except Exception` catches.  `fired_sorted[0]` on an empty list would be
an `IndexError`, unreachable behind the emptiness guard.  Proving the
`Except` variant equal to `Except.ok` of the pure one verifies absence of
exceptions on the covered inputs.
-/

/-- Is the value hashable in Python (usable as a dict-membership key)?
Numbers, strings and booleans are; a list is not. -/
def hashableVal : Value → Bool
  | Value.list _ => false
  | _ => true

/-- Python `field not in facts`: hashes `field` first, raising `TypeError`
on an unhashable key; otherwise a total membership test. -/
def notInFactsE (facts : Facts) (field : Value) : Except String Bool :=
  if hashableVal field then Except.ok (factLookup facts field).isNone
  else Except.error "TypeError: unhashable type: list"

/-- Python `op not in OPS`: hashes `op` first, raising `TypeError` on an
unhashable key; otherwise a total membership test. -/
def notInOpsE (op : Value) : Except String Bool :=
  if hashableVal op then Except.ok (opLookup op).isNone
  else Except.error "TypeError: unhashable type: list"

/-- Does the condition avoid unhashable (list) values in its field and
operator slots?  (Vacuously so when it is not a 3-element list, since the
arity check returns before the membership guard.) -/
def condSlotsHashable : List Value → Bool
  | [f, o, _] => hashableVal f && hashableVal o
  | _ => true

/-- `evaluate_condition` with every raise site explicit: the arity check
returns first; the membership guard hashes `field`, then — only if the
field was found — hashes `op` (the `or` short-circuits); once both guards
pass, both lookups succeed and the `try/except Exception` catches
everything raised by the operator application (the `Option.none` result). -/
def evaluate_conditionE (facts : Facts) (cond : List Value) : Except String Bool :=
  match cond with
  | [field, op, value] => do
    let fieldAbsent ← notInFactsE facts field
    if fieldAbsent then
      Except.ok false
    else do
      let opAbsent ← notInOpsE op
      if opAbsent then
        Except.ok false
      else
        match factLookup facts field, opLookup op with
        | some fv, some opf => Except.ok ((opf fv value).getD false)
        | _, _ => Except.ok false
  | _ => Except.ok false

/-- The Python `all(p(c) for c in cs)` with effects, short-circuiting. -/
def allCondsE (p : List Value → Except String Bool) :
    List (List Value) → Except String Bool
  | [] => Except.ok true
  | c :: cs => do
    let b ← p c
    if b then allCondsE p cs else Except.ok false

/-- `rule_matches` with explicit exception threading. -/
def rule_matchesE (facts : Facts) (rule : Rule) : Except String Bool :=
  allCondsE (fun c => evaluate_conditionE facts c) (rule.conditions.getD [])

/-- The Python list comprehension `[r for r in rules if p(r)]` with effects,
evaluated left to right. -/
def listCompE (p : Rule → Except String Bool) :
    List Rule → Except String (List Rule)
  | [] => Except.ok []
  | r :: rs => do
    let b ← p r
    let rest ← listCompE p rs
    Except.ok (if b then r :: rest else rest)

/-- `run_rules` with explicit exception threading; `fired_sorted[0]` on an
empty list would be an `IndexError`. -/
def run_rulesE (facts : Facts) (rules : List Rule) :
    Except String (Action × List Rule) := do
  let fired ← listCompE (fun r => rule_matchesE facts r) rules
  if fired.isEmpty then
    Except.ok (⟨"NO_RULE", "No rules matched"⟩, [])
  else
    match sortDesc fired with
    | best :: rest =>
      Except.ok (best.action.getD ⟨"NO_ACTION", "-"⟩, best :: rest)
    | [] => Except.error "IndexError"

/-- The descending-priority order used for the fired list. -/
def keyGE (a b : Rule) : Prop := priorityKey b ≤ priorityKey a

/-- Replace a missing `priority` field by the explicit default `0`. -/
def normalizePriority (r : Rule) : Rule := { r with priority := some (priorityKey r) }

/-- Is the value a Python number (recalling that `bool` is an `int` in
Python, so booleans compare numerically)? -/
def isNumericVal : Value → Bool
  | Value.num _ => true
  | Value.bool _ => true
  | _ => false

/-- Is the value a Python string? -/
def isStrVal : Value → Bool
  | Value.str _ => true
  | _ => false

/-- A rule object with every optional field absent. -/
def trivialRule : Rule := {}

/-- R1 of the spec: priority 50, always matching. -/
def r1c : Rule :=
  { name := "R1", priority := some 50, conditions := some [],
    action := some ⟨"ACT1", "from R1"⟩ }

/-- R2 of the spec: priority 90, always matching. -/
def r2c : Rule :=
  { name := "R2", priority := some 90, conditions := some [],
    action := some ⟨"ACT2", "from R2"⟩ }

/-- An always-matching rule with explicit negative priority. -/
def negPriorityRule : Rule :=
  { name := "A", priority := some (-5), conditions := some [],
    action := some ⟨"ACT_A", "from A"⟩ }

/-- An always-matching rule with no priority and no action field. -/
def bareRule : Rule := { name := "B" }

/-! Structural lemmas about the stable descending sort. -/

theorem insertDesc_perm (r : Rule) (l : List Rule) : (insertDesc r l).Perm (r :: l) := by
  induction l with
  | nil => exact List.Perm.refl _
  | cons y ys ih =>
    by_cases h : priorityKey y ≤ priorityKey r
    · simp only [insertDesc, if_pos h]
      exact List.Perm.refl _
    · simp only [insertDesc, if_neg h]
      exact (ih.cons y).trans (List.Perm.swap r y ys)

theorem sortDesc_perm (l : List Rule) : (sortDesc l).Perm l := by
  induction l with
  | nil => exact List.Perm.refl _
  | cons x xs ih => exact (insertDesc_perm x (sortDesc xs)).trans (ih.cons x)

theorem insertDesc_pairwise (r : Rule) (l : List Rule) (h : l.Pairwise keyGE) :
    (insertDesc r l).Pairwise keyGE := by
  induction l with
  | nil => simp [insertDesc]
  | cons y ys ih =>
    rcases List.pairwise_cons.mp h with ⟨hy, hys⟩
    by_cases hc : priorityKey y ≤ priorityKey r
    · simp only [insertDesc, if_pos hc]
      refine List.pairwise_cons.mpr ⟨?_, h⟩
      intro b hb
      rcases List.mem_cons.mp hb with rfl | hb
      · exact hc
      · exact le_trans (hy b hb) hc
    · simp only [insertDesc, if_neg hc]
      refine List.pairwise_cons.mpr ⟨?_, ih hys⟩
      intro b hb
      rcases List.mem_cons.mp ((insertDesc_perm r ys).mem_iff.mp hb) with rfl | hb
      · exact le_of_lt (lt_of_not_le hc)
      · exact hy b hb

theorem sortDesc_pairwise (l : List Rule) : (sortDesc l).Pairwise keyGE := by
  induction l with
  | nil => simp [sortDesc]
  | cons x xs ih => exact insertDesc_pairwise x (sortDesc xs) ih

theorem insertDesc_filter_of_eq (r : Rule) (l : List Rule) (p : Int)
    (hp : priorityKey r = p) :
    (insertDesc r l).filter (fun x => decide (priorityKey x = p)) =
      r :: l.filter (fun x => decide (priorityKey x = p)) := by
  induction l with
  | nil => simp [insertDesc, hp]
  | cons y ys ih =>
    by_cases hc : priorityKey y ≤ priorityKey r
    · simp only [insertDesc, if_pos hc]
      simp [List.filter_cons, hp]
    · have hy : ¬ priorityKey y = p := fun hyp => hc (by rw [hyp, ← hp])
      simp only [insertDesc, if_neg hc]
      simp [List.filter_cons, hy, ih]

theorem insertDesc_filter_of_ne (r : Rule) (l : List Rule) (p : Int)
    (hp : ¬ priorityKey r = p) :
    (insertDesc r l).filter (fun x => decide (priorityKey x = p)) =
      l.filter (fun x => decide (priorityKey x = p)) := by
  induction l with
  | nil => simp [insertDesc, hp]
  | cons y ys ih =>
    by_cases hc : priorityKey y ≤ priorityKey r
    · simp only [insertDesc, if_pos hc]
      simp [List.filter_cons, hp]
    · simp only [insertDesc, if_neg hc]
      simp [List.filter_cons, ih]

theorem sortDesc_filter (l : List Rule) (p : Int) :
    (sortDesc l).filter (fun x => decide (priorityKey x = p)) =
      l.filter (fun x => decide (priorityKey x = p)) := by
  induction l with
  | nil => rfl
  | cons x xs ih =>
    by_cases hx : priorityKey x = p
    · simp only [sortDesc, insertDesc_filter_of_eq x (sortDesc xs) p hx, ih,
        List.filter_cons]
      simp [hx]
    · simp only [sortDesc, insertDesc_filter_of_ne x (sortDesc xs) p hx, ih,
        List.filter_cons]
      simp [hx]

theorem run_rules_eq_of_sort (facts : Facts) (rules : List Rule) (w : Rule)
    (rest : List Rule)
    (hs : sortDesc (rules.filter (fun r => rule_matches facts r)) = w :: rest) :
    run_rules facts rules = (w.action.getD ⟨"NO_ACTION", "-"⟩, w :: rest) := by
  have hne : (rules.filter (fun r => rule_matches facts r)).isEmpty = false := by
    cases hf : rules.filter (fun r => rule_matches facts r) with
    | nil => rw [hf] at hs; exact absurd hs (by simp [sortDesc])
    | cons a as => rfl
  simp only [run_rules, hne, Bool.false_eq_true, if_false, hs]

/-- Claim C1: whenever at least one rule matches, `run_rules` returns a
nonempty fired list that is a permutation of the matching rules sorted by
priority descending, the decision is the action of its first element
(the `NO_ACTION` substitute if that action is absent), and that first
element has the highest priority among all matching rules. -/
theorem run_rules_priority (facts : Facts) (rules : List Rule)
    (h : ∃ r ∈ rules, rule_matches facts r = true) :
    ∃ w rest,
      (run_rules facts rules).2 = w :: rest ∧
      (run_rules facts rules).1 = w.action.getD ⟨"NO_ACTION", "-"⟩ ∧
      List.Perm (run_rules facts rules).2
        (rules.filter (fun r => rule_matches facts r)) ∧
      List.Pairwise keyGE (run_rules facts rules).2 ∧
      ∀ r ∈ rules, rule_matches facts r = true → priorityKey r ≤ priorityKey w := by
  obtain ⟨r0, hr0, hm0⟩ := h
  obtain ⟨w, rest, hs⟩ :
      ∃ w rest, sortDesc (rules.filter (fun r => rule_matches facts r)) = w :: rest := by
    cases hsd : sortDesc (rules.filter (fun r => rule_matches facts r)) with
    | nil =>
      have hperm := sortDesc_perm (rules.filter (fun r => rule_matches facts r))
      rw [hsd] at hperm
      have hfil : r0 ∈ rules.filter (fun r => rule_matches facts r) :=
        List.mem_filter.mpr ⟨hr0, hm0⟩
      rw [hperm.symm.eq_nil] at hfil
      exact absurd hfil (List.not_mem_nil r0)
    | cons w rest => exact ⟨w, rest, rfl⟩
  have hrun := run_rules_eq_of_sort facts rules w rest hs
  rw [hrun]
  refine ⟨w, rest, rfl, rfl, ?_, ?_, ?_⟩
  · exact hs ▸ sortDesc_perm _
  · exact hs ▸ sortDesc_pairwise _
  · intro r hr hm
    have hrf : r ∈ rules.filter (fun x => rule_matches facts x) :=
      List.mem_filter.mpr ⟨hr, hm⟩
    have hmem : r ∈ w :: rest := by
      rw [← hs]
      exact (sortDesc_perm _).mem_iff.mpr hrf
    have hpw : (w :: rest).Pairwise keyGE := hs ▸ sortDesc_pairwise _
    rcases List.mem_cons.mp hmem with rfl | hmem
    · exact le_refl _
    · exact (List.pairwise_cons.mp hpw).1 r hmem

/-- Claim C1 witness: with R1 (priority 50) and R2 (priority 90) both
matching, the decision is the action of R2 and R2 is listed before R1. -/
theorem run_rules_priority_witness :
    (∃ r ∈ [r1c, r2c], rule_matches [] r = true) ∧
    (∃ w rest,
      (run_rules [] [r1c, r2c]).2 = w :: rest ∧
      (run_rules [] [r1c, r2c]).1 = w.action.getD ⟨"NO_ACTION", "-"⟩ ∧
      List.Perm (run_rules [] [r1c, r2c]).2
        ([r1c, r2c].filter (fun r => rule_matches [] r)) ∧
      List.Pairwise keyGE (run_rules [] [r1c, r2c]).2 ∧
      ∀ r ∈ [r1c, r2c], rule_matches [] r = true →
        priorityKey r ≤ priorityKey w) ∧
    (run_rules [] [r1c, r2c]).1 = ⟨"ACT2", "from R2"⟩ ∧
    (run_rules [] [r1c, r2c]).2 = [r2c, r1c] :=
  ⟨⟨r1c, List.mem_cons_self r1c [r2c], rfl⟩,
    run_rules_priority [] [r1c, r2c] ⟨r1c, List.mem_cons_self r1c [r2c], rfl⟩,
    rfl, rfl⟩

/-- Claim C2: the descending-priority sort is stable — for every priority
value `p`, the fired rules of priority `p` appear in the output in exactly
their relative input order; in particular two matching rules `[A, B]` of
equal priority come out as `[A, B]`. -/
theorem run_rules_stable (facts : Facts) (rules : List Rule) :
    (∀ p : Int,
      ((run_rules facts rules).2).filter (fun r => decide (priorityKey r = p)) =
        (rules.filter (fun r => rule_matches facts r)).filter
          (fun r => decide (priorityKey r = p))) ∧
    (∀ A B : Rule, rule_matches facts A = true → rule_matches facts B = true →
      priorityKey A = priorityKey B → (run_rules facts [A, B]).2 = [A, B]) := by
  constructor
  · intro p
    cases hf : rules.filter (fun r => rule_matches facts r) with
    | nil =>
      have : (run_rules facts rules).2 = [] := by
        simp [run_rules, hf]
      simp [this, hf]
    | cons a as =>
      obtain ⟨w, rest, hs⟩ :
          ∃ w rest, sortDesc (rules.filter (fun r => rule_matches facts r)) = w :: rest := by
        cases hsd : sortDesc (rules.filter (fun r => rule_matches facts r)) with
        | nil =>
          have hperm := sortDesc_perm (rules.filter (fun r => rule_matches facts r))
          rw [hsd, hf] at hperm
          exact absurd hperm.symm.eq_nil (by simp)
        | cons w rest => exact ⟨w, rest, rfl⟩
      rw [run_rules_eq_of_sort facts rules w rest hs]
      rw [← hs, sortDesc_filter, hf]
  · intro A B hA hB hAB
    have hf : [A, B].filter (fun r => rule_matches facts r) = [A, B] := by
      simp [List.filter_cons, hA, hB]
    have hs : sortDesc ([A, B].filter (fun r => rule_matches facts r)) = [A, B] := by
      rw [hf]
      simp [sortDesc, insertDesc, hAB.ge]
    rw [run_rules_eq_of_sort facts [A, B] A [B] hs]

/-- Claim C2 witness: two always-matching rules of equal priority 50, in
input order `[A, B]`, come out of `run_rules` in order `[A, B]`. -/
theorem run_rules_stable_witness :
    rule_matches [] { name := "A", priority := some 50, conditions := some [] } = true ∧
    rule_matches [] { name := "B", priority := some 50, conditions := some [] } = true ∧
    (run_rules []
      [{ name := "A", priority := some 50, conditions := some [] },
       { name := "B", priority := some 50, conditions := some [] }]).2 =
      [{ name := "A", priority := some 50, conditions := some [] },
       { name := "B", priority := some 50, conditions := some [] }] :=
  ⟨rfl, rfl,
    (run_rules_stable [] []).2
      { name := "A", priority := some 50, conditions := some [] }
      { name := "B", priority := some 50, conditions := some [] }
      rfl rfl rfl⟩

/-- Claim C7: when no rule matches (in particular for the empty rule
list), `run_rules` returns the `NO_RULE` sentinel and an empty fired
list. -/
theorem run_rules_no_match (facts : Facts) (rules : List Rule)
    (h : ∀ r ∈ rules, rule_matches facts r = false) :
    run_rules facts rules = (⟨"NO_RULE", "No rules matched"⟩, []) := by
  have hf : rules.filter (fun r => rule_matches facts r) = [] :=
    List.filter_eq_nil_iff.mpr (by intro a ha; simp [h a ha])
  simp [run_rules, hf]

/-- Claim C7 witness: on a fact set matching nothing ("Top merit
candidate" needs facts that are absent) and on the empty rule list,
`run_rules` returns the sentinel and no fired rules. -/
theorem run_rules_no_match_witness :
    (∀ r ∈ [topMeritRule], rule_matches [] r = false) ∧
    run_rules [] [topMeritRule] = (⟨"NO_RULE", "No rules matched"⟩, []) ∧
    run_rules [] [] = (⟨"NO_RULE", "No rules matched"⟩, []) :=
  ⟨by decide, run_rules_no_match [] [topMeritRule] (by decide),
    run_rules_no_match [] [] (by intro r hr; exact absurd hr (List.not_mem_nil r))⟩

/-- Claim C3 counterexample: the condition `[[1], "==", 2]` has a field
that is absent from the facts (a list is not a key of the dict), yet the
engine raises `TypeError: unhashable type` at the membership guard — which
precedes the `try` — instead of returning `false`. -/
theorem evaluate_condition_unhashable_counterexample :
    factLookup [("x", Value.num 1)] (Value.list [Value.num 1]) = Option.none ∧
    evaluate_conditionE [("x", Value.num 1)]
      [Value.list [Value.num 1], Value.str "==", Value.num 2] =
      Except.error "TypeError: unhashable type: list" :=
  ⟨rfl, rfl⟩

/-- Claim C3 (amended): a malformed condition — wrong arity, a hashable
field absent from the facts, a hashable operator symbol not in the
registry, or an operator application that raises — evaluates to `false`
without raising (a list in the field slot, or in the operator slot when
the field was found, instead raises `TypeError` at the membership
guard). -/
theorem evaluate_condition_malformed (facts : Facts) (cond : List Value)
    (h : cond.length ≠ 3 ∨
      (∃ f o v, cond = [f, o, v] ∧ hashableVal f = true ∧
        factLookup facts f = Option.none) ∨
      (∃ f o v, cond = [f, o, v] ∧ hashableVal f = true ∧ hashableVal o = true ∧
        opLookup o = Option.none) ∨
      (∃ f o v fv opf, cond = [f, o, v] ∧ factLookup facts f = some fv ∧
        opLookup o = some opf ∧ opf fv v = Option.none)) :
    evaluate_condition facts cond = false ∧
    evaluate_conditionE facts cond = Except.ok false := by
  rcases h with h | ⟨f, o, v, rfl, hhf, hf⟩ | ⟨f, o, v, rfl, hhf, hho, ho⟩ |
    ⟨f, o, v, fv, opf, rfl, hf, ho, hr⟩
  · cases cond with
    | nil => exact ⟨rfl, rfl⟩
    | cons a t =>
      cases t with
      | nil => exact ⟨rfl, rfl⟩
      | cons b t2 =>
        cases t2 with
        | nil => exact ⟨rfl, rfl⟩
        | cons c t3 =>
          cases t3 with
          | nil => exact absurd rfl h
          | cons d t4 => exact ⟨rfl, rfl⟩
  · constructor
    · cases ho' : opLookup o <;> simp [evaluate_condition, hf, ho']
    · simp [evaluate_conditionE, notInFactsE, hhf, hf, Bind.bind, Except.bind]
  · constructor
    · cases hf' : factLookup facts f <;> simp [evaluate_condition, hf', ho]
    · cases hf' : factLookup facts f <;>
        simp [evaluate_conditionE, notInFactsE, notInOpsE, hhf, hho, hf', ho,
          Bind.bind, Except.bind]
  · have hhf : hashableVal f = true := by
      cases f <;> first | rfl | simp [factLookup] at hf
    have hho : hashableVal o = true := by
      cases o <;> first | rfl | simp [opLookup] at ho
    constructor
    · simp [evaluate_condition, hf, ho, hr]
    · simp [evaluate_conditionE, notInFactsE, notInOpsE, hhf, hho, hf, ho, hr,
        Bind.bind, Except.bind]

/-- Claim C3 witness: concrete malformed conditions of each amended kind —
wrong arity, missing hashable field, unknown hashable operator, and an
operator application that raises inside the `try` (comparing a number with
a string) — all evaluate to `false`, the last one also in the
exception-transparent model. -/
theorem evaluate_condition_malformed_witness :
    ([Value.str "x"] : List Value).length ≠ 3 ∧
    evaluate_condition [("x", Value.num 1)] [Value.str "x"] = false ∧
    evaluate_condition [("x", Value.num 1)]
      [Value.str "y", Value.str "==", Value.num 1] = false ∧
    evaluate_condition [("x", Value.num 1)]
      [Value.str "x", Value.str "===", Value.num 1] = false ∧
    evaluate_condition [("x", Value.num 1)]
      [Value.str "x", Value.str "<", Value.str "a"] = false ∧
    evaluate_conditionE [("x", Value.num 1)]
      [Value.str "x", Value.str "<", Value.str "a"] = Except.ok false :=
  ⟨by decide,
   (evaluate_condition_malformed [("x", Value.num 1)] [Value.str "x"]
     (Or.inl (by decide))).1,
   (evaluate_condition_malformed [("x", Value.num 1)]
     [Value.str "y", Value.str "==", Value.num 1] (Or.inr (Or.inl
     ⟨Value.str "y", Value.str "==", Value.num 1, rfl, rfl, rfl⟩))).1,
   (evaluate_condition_malformed [("x", Value.num 1)]
     [Value.str "x", Value.str "===", Value.num 1] (Or.inr (Or.inr (Or.inl
     ⟨Value.str "x", Value.str "===", Value.num 1, rfl, rfl, rfl, rfl⟩)))).1,
   (evaluate_condition_malformed [("x", Value.num 1)]
     [Value.str "x", Value.str "<", Value.str "a"] (Or.inr (Or.inr (Or.inr
     ⟨Value.str "x", Value.str "<", Value.str "a", Value.num 1,
       fun a b => pyLt a b, rfl, rfl, rfl, rfl⟩)))).1,
   (evaluate_condition_malformed [("x", Value.num 1)]
     [Value.str "x", Value.str "<", Value.str "a"] (Or.inr (Or.inr (Or.inr
     ⟨Value.str "x", Value.str "<", Value.str "a", Value.num 1,
       fun a b => pyLt a b, rfl, rfl, rfl, rfl⟩)))).2⟩

/-- Claim C6: a rule matches iff every condition in its (possibly
defaulted) condition list evaluates true; a rule whose conditions are
absent or empty matches vacuously. -/
theorem rule_matches_conjunction (facts : Facts) (rule : Rule) :
    (rule_matches facts rule = true ↔
      ∀ c ∈ rule.conditions.getD [], evaluate_condition facts c = true) ∧
    ((rule.conditions = Option.none ∨ rule.conditions = some []) →
      rule_matches facts rule = true) := by
  constructor
  · exact List.all_eq_true
  · rintro (h | h) <;> simp [rule_matches, h]

/-- Claim C6 witness: the rule with every field absent matches any fact
set vacuously. -/
theorem rule_matches_conjunction_witness :
    (trivialRule.conditions = Option.none ∨ trivialRule.conditions = some []) ∧
    rule_matches [] trivialRule = true :=
  ⟨Or.inl rfl, (rule_matches_conjunction [] trivialRule).2 (Or.inl rfl)⟩

/-- Claim C9: on a type mismatch between number/boolean and string —
where Python equality returns a boolean instead of raising — `!=`
evaluates to `true` (the values are unequal) and `==` to `false`; the
degrade-to-false policy does not apply. -/
theorem evaluate_condition_ne_mismatch (facts : Facts) (f : String) (v fv : Value)
    (hl : List.lookup f facts = some fv)
    (hm : ((isNumericVal fv && isStrVal v) || (isStrVal fv && isNumericVal v)) = true) :
    pyEq fv v = false ∧
    evaluate_condition facts [Value.str f, Value.str "!=", v] = true ∧
    evaluate_condition facts [Value.str f, Value.str "==", v] = false := by
  have hne : pyEq fv v = false := by
    cases fv <;> cases v <;> simp_all [pyEq, isNumericVal, isStrVal]
  have hop : opLookup (Value.str "!=") = some (fun a b => some (!(pyEq a b))) := rfl
  have hop2 : opLookup (Value.str "==") = some (fun a b => some (pyEq a b)) := rfl
  refine ⟨hne, ?_, ?_⟩
  · simp [evaluate_condition, factLookup, hl, hop, hne]
  · simp [evaluate_condition, factLookup, hl, hop2, hne]

/-- Claim C9 witness: fact value `1` (a number) against literal `"1"` (a
string): `!=` evaluates `true`, `==` evaluates `false`. -/
theorem evaluate_condition_ne_mismatch_witness :
    List.lookup "x" [("x", Value.num 1)] = some (Value.num 1) ∧
    ((isNumericVal (Value.num 1) && isStrVal (Value.str "1")) ||
      (isStrVal (Value.num 1) && isNumericVal (Value.str "1"))) = true ∧
    evaluate_condition [("x", Value.num 1)]
      [Value.str "x", Value.str "!=", Value.str "1"] = true ∧
    evaluate_condition [("x", Value.num 1)]
      [Value.str "x", Value.str "==", Value.str "1"] = false :=
  ⟨rfl, rfl,
   (evaluate_condition_ne_mismatch [("x", Value.num 1)] "x" (Value.str "1")
     (Value.num 1) rfl rfl).2.1,
   (evaluate_condition_ne_mismatch [("x", Value.num 1)] "x" (Value.str "1")
     (Value.num 1) rfl rfl).2.2⟩

/-- Claim C10: when the membership test does not raise, `in` and `not_in`
evaluate to complementary booleans; when it raises (the literal is not a
container), both evaluate to `false` and complementarity fails. -/
theorem evaluate_condition_in_complement (facts : Facts) (f : String) (v fv : Value)
    (hl : List.lookup f facts = some fv) :
    (pyIn fv v ≠ Option.none →
      evaluate_condition facts [Value.str f, Value.str "in", v] =
        !(evaluate_condition facts [Value.str f, Value.str "not_in", v])) ∧
    (pyIn fv v = Option.none →
      evaluate_condition facts [Value.str f, Value.str "in", v] = false ∧
      evaluate_condition facts [Value.str f, Value.str "not_in", v] = false) := by
  have hin : opLookup (Value.str "in") = some (fun a b => pyIn a b) := rfl
  have hnin : opLookup (Value.str "not_in") =
      some (fun a b => (pyIn a b).map (fun x => !x)) := rfl
  constructor
  · intro h
    cases hp : pyIn fv v with
    | none => exact absurd hp h
    | some b => simp [evaluate_condition, factLookup, hl, hin, hnin, hp]
  · intro hp
    simp [evaluate_condition, factLookup, hl, hin, hnin, hp]

/-- Claim C10 witness: for fact value `"A"` and list literal `["A"]`,
`in` is `true` and `not_in` its negation; for the non-container literal
`5` the membership test raises and both evaluate to `false`. -/
theorem evaluate_condition_in_complement_witness :
    List.lookup "s" [("s", Value.str "A")] = some (Value.str "A") ∧
    pyIn (Value.str "A") (Value.list [Value.str "A"]) ≠ Option.none ∧
    evaluate_condition [("s", Value.str "A")]
      [Value.str "s", Value.str "in", Value.list [Value.str "A"]] =
      !(evaluate_condition [("s", Value.str "A")]
        [Value.str "s", Value.str "not_in", Value.list [Value.str "A"]]) ∧
    pyIn (Value.str "A") (Value.num 5) = Option.none ∧
    evaluate_condition [("s", Value.str "A")]
      [Value.str "s", Value.str "in", Value.num 5] = false ∧
    evaluate_condition [("s", Value.str "A")]
      [Value.str "s", Value.str "not_in", Value.num 5] = false := by
  refine ⟨rfl, by decide, ?_, rfl, ?_, ?_⟩
  · exact (evaluate_condition_in_complement [("s", Value.str "A")] "s"
      (Value.list [Value.str "A"]) (Value.str "A") rfl).1 (by decide)
  · exact ((evaluate_condition_in_complement [("s", Value.str "A")] "s"
      (Value.num 5) (Value.str "A") rfl).2 rfl).1
  · exact ((evaluate_condition_in_complement [("s", Value.str "A")] "s"
      (Value.num 5) (Value.str "A") rfl).2 rfl).2

/-! Lemmas for the missing-priority default. -/

theorem priorityKey_normalize (r : Rule) :
    priorityKey (normalizePriority r) = priorityKey r := rfl

theorem rule_matches_normalize (facts : Facts) (r : Rule) :
    rule_matches facts (normalizePriority r) = rule_matches facts r := rfl

theorem filter_map_normalize (facts : Facts) (rules : List Rule) :
    (rules.map normalizePriority).filter (fun r => rule_matches facts r) =
      (rules.filter (fun r => rule_matches facts r)).map normalizePriority := by
  induction rules with
  | nil => rfl
  | cons x xs ih =>
    simp only [List.map_cons, List.filter_cons, rule_matches_normalize]
    by_cases h : rule_matches facts x = true
    · simp [h, ih]
    · simp [h, ih]

theorem insertDesc_map_normalize (r : Rule) (l : List Rule) :
    insertDesc (normalizePriority r) (l.map normalizePriority) =
      (insertDesc r l).map normalizePriority := by
  induction l with
  | nil => rfl
  | cons y ys ih =>
    simp only [List.map_cons, insertDesc, priorityKey_normalize]
    by_cases h : priorityKey y ≤ priorityKey r
    · simp [h]
    · simp [h, ih]

theorem sortDesc_map_normalize (l : List Rule) :
    sortDesc (l.map normalizePriority) = (sortDesc l).map normalizePriority := by
  induction l with
  | nil => rfl
  | cons x xs ih => simp only [List.map_cons, sortDesc, ih, insertDesc_map_normalize]

/-- Claim C5: a missing `priority` field behaves exactly like priority 0 —
replacing every absent priority by an explicit 0 changes neither the
decision nor the fired order — and when the `action` field of the winning rule
is absent the decision is the `NO_ACTION` substitute. -/
theorem run_rules_missing_fields (facts : Facts) (rules : List Rule) :
    (run_rules facts (rules.map normalizePriority)).1 = (run_rules facts rules).1 ∧
    (run_rules facts (rules.map normalizePriority)).2 =
      ((run_rules facts rules).2).map normalizePriority ∧
    (∀ w rest, (run_rules facts rules).2 = w :: rest → w.action = Option.none →
      (run_rules facts rules).1 = ⟨"NO_ACTION", "-"⟩) := by
  cases hf : rules.filter (fun r => rule_matches facts r) with
  | nil =>
    have hfm : (rules.map normalizePriority).filter
        (fun r => rule_matches facts r) = [] := by
      rw [filter_map_normalize, hf]; rfl
    have h1 : run_rules facts rules = (⟨"NO_RULE", "No rules matched"⟩, []) := by
      simp [run_rules, hf]
    have h2 : run_rules facts (rules.map normalizePriority) =
        (⟨"NO_RULE", "No rules matched"⟩, []) := by
      simp [run_rules, hfm]
    refine ⟨by rw [h1, h2], by rw [h1, h2]; rfl, ?_⟩
    intro w rest heq
    rw [h1] at heq
    simp at heq
  | cons a as =>
    obtain ⟨w, rest, hs⟩ : ∃ w rest, sortDesc (a :: as) = w :: rest := by
      cases hsd : sortDesc (a :: as) with
      | nil =>
        have hperm := sortDesc_perm (a :: as)
        rw [hsd] at hperm
        exact absurd hperm.symm.eq_nil (by simp)
      | cons w rest => exact ⟨w, rest, rfl⟩
    have hs1 : sortDesc (rules.filter (fun r => rule_matches facts r)) = w :: rest := by
      rw [hf]; exact hs
    have hsm : sortDesc ((rules.map normalizePriority).filter
        (fun r => rule_matches facts r)) =
        normalizePriority w :: rest.map normalizePriority := by
      rw [filter_map_normalize, sortDesc_map_normalize, hs1]; rfl
    have h1 := run_rules_eq_of_sort facts rules w rest hs1
    have h2 := run_rules_eq_of_sort facts (rules.map normalizePriority)
      (normalizePriority w) (rest.map normalizePriority) hsm
    refine ⟨by rw [h1, h2]; rfl, by rw [h1, h2]; rfl, ?_⟩
    intro w' rest' heq hact
    rw [h1] at heq
    simp only [Prod.snd] at heq
    injection heq with hw htl
    rw [h1]
    simp only [Prod.fst]
    rw [hw, hact]
    rfl

/-- Claim C5 witness: with an always-matching rule of priority −5 followed
by an always-matching rule with no priority and no action, the
priority-less rule sorts first (as priority 0 > −5) and its missing action
yields the `NO_ACTION` decision. -/
theorem run_rules_missing_fields_witness :
    (run_rules [] [negPriorityRule, bareRule]).2 = [bareRule, negPriorityRule] ∧
    bareRule.action = Option.none ∧
    (run_rules [] [negPriorityRule, bareRule]).1 = ⟨"NO_ACTION", "-"⟩ :=
  ⟨rfl, rfl,
    (run_rules_missing_fields [] [negPriorityRule, bareRule]).2.2
      bareRule [negPriorityRule] rfl rfl⟩

/-- Claim C8: on the Scenario 4 facts, "Top merit candidate" does not
match (its `disciplinary_actions == 0` condition fails), the fired list is
exactly ["Serious disciplinary record" (priority 90), "Need-based review"],
the decision is that REJECT action, and no fired rule carries an AWARD
decision. -/
theorem scenario4_run :
    evaluate_condition scenario4Facts
      [Value.str "disciplinary_actions", Value.str "==", Value.num 0] = false ∧
    rule_matches scenario4Facts topMeritRule = false ∧
    (run_rules scenario4Facts DEFAULT_RULES).1 =
      ⟨"REJECT", "Too many disciplinary records"⟩ ∧
    (run_rules scenario4Facts DEFAULT_RULES).2 = [disciplinaryRule, needBasedRule] ∧
    ∀ r ∈ (run_rules scenario4Facts DEFAULT_RULES).2,
      (r.action.getD ⟨"NO_ACTION", "-"⟩).decision ≠ "AWARD_FULL" ∧
      (r.action.getD ⟨"NO_ACTION", "-"⟩).decision ≠ "AWARD_PARTIAL" :=
  ⟨by decide, by decide, rfl, rfl, by decide⟩

/-! Lemmas relating the exception-transparent engine to the pure one, on
the inputs where the membership guard cannot raise. -/

theorem evaluate_conditionE_ok (facts : Facts) (cond : List Value)
    (h : condSlotsHashable cond = true) :
    evaluate_conditionE facts cond = Except.ok (evaluate_condition facts cond) := by
  cases cond with
  | nil => rfl
  | cons a t =>
    cases t with
    | nil => rfl
    | cons b t2 =>
      cases t2 with
      | nil => rfl
      | cons c t3 =>
        cases t3 with
        | cons d t4 => rfl
        | nil =>
          obtain ⟨hha, hhb⟩ : hashableVal a = true ∧ hashableVal b = true := by
            simpa [condSlotsHashable] using h
          cases hf : factLookup facts a with
          | none =>
            simp [evaluate_conditionE, evaluate_condition, notInFactsE, hha, hf,
              Bind.bind, Except.bind]
          | some fv =>
            cases ho : opLookup b with
            | none =>
              simp [evaluate_conditionE, evaluate_condition, notInFactsE,
                notInOpsE, hha, hhb, hf, ho, Bind.bind, Except.bind]
            | some opf =>
              simp [evaluate_conditionE, evaluate_condition, notInFactsE,
                notInOpsE, hha, hhb, hf, ho, Bind.bind, Except.bind]

theorem allCondsE_ok (facts : Facts) (cs : List (List Value))
    (h : ∀ c ∈ cs, condSlotsHashable c = true) :
    allCondsE (fun c => evaluate_conditionE facts c) cs =
      Except.ok (cs.all (fun c => evaluate_condition facts c)) := by
  induction cs with
  | nil => rfl
  | cons c cs ih =>
    have hc := evaluate_conditionE_ok facts c (h c (List.mem_cons_self c cs))
    simp only [allCondsE, hc, List.all_cons]
    cases hval : evaluate_condition facts c <;>
      simp [hval, ih (fun x hx => h x (List.mem_cons_of_mem c hx)),
        Bind.bind, Except.bind]

theorem rule_matchesE_ok (facts : Facts) (r : Rule)
    (h : ∀ c ∈ r.conditions.getD [], condSlotsHashable c = true) :
    rule_matchesE facts r = Except.ok (rule_matches facts r) :=
  allCondsE_ok facts (r.conditions.getD []) h

theorem listCompE_ok (facts : Facts) (rs : List Rule)
    (h : ∀ r ∈ rs, ∀ c ∈ r.conditions.getD [], condSlotsHashable c = true) :
    listCompE (fun r => rule_matchesE facts r) rs =
      Except.ok (rs.filter (fun r => rule_matches facts r)) := by
  induction rs with
  | nil => rfl
  | cons r rs ih =>
    have hr := rule_matchesE_ok facts r (h r (List.mem_cons_self r rs))
    simp only [listCompE, hr]
    cases hm : rule_matches facts r <;>
      simp [hm, ih (fun x hx => h x (List.mem_cons_of_mem r hx)),
        List.filter_cons, Bind.bind, Except.bind]

/-- Claim C4 counterexample: a syntactically valid rule list whose one
condition is `[[1], "==", 2]` makes the engine raise an uncaught
`TypeError: unhashable type` at the membership guard — which precedes the
`try` — so `run_rules` does not complete without exception on every valid
rule sequence. -/
theorem run_rules_unhashable_counterexample :
    run_rulesE [("x", Value.num 1)]
      [{ conditions :=
          some [[Value.list [Value.num 1], Value.str "==", Value.num 2]] }] =
      Except.error "TypeError: unhashable type: list" :=
  rfl

/-- Claim C4 (amended): for every fact set and syntactically valid rule
sequence none of whose conditions carries an unhashable (list) value in
its field or operator slot, the engine surfaces no exception — the
exception-transparent engine returns `Except.ok` of the pure result — and
condition evaluation returns a boolean for every such 3-tuple condition.
(A list in a field or operator slot instead raises an uncaught
`TypeError` at the membership guard.) -/
theorem run_rules_total (facts : Facts) (rules : List Rule)
    (h : ∀ r ∈ rules, ∀ c ∈ r.conditions.getD [], condSlotsHashable c = true) :
    run_rulesE facts rules = Except.ok (run_rules facts rules) ∧
    ∀ cond : List Value, condSlotsHashable cond = true →
      evaluate_conditionE facts cond = Except.ok (evaluate_condition facts cond) := by
  refine ⟨?_, fun cond hc => evaluate_conditionE_ok facts cond hc⟩
  simp only [run_rulesE, listCompE_ok facts rules h]
  cases hf : rules.filter (fun r => rule_matches facts r) with
  | nil => simp [run_rules, hf, Bind.bind, Except.bind]
  | cons a as =>
    obtain ⟨w, rest, hs⟩ : ∃ w rest, sortDesc (a :: as) = w :: rest := by
      cases hsd : sortDesc (a :: as) with
      | nil =>
        have hperm := sortDesc_perm (a :: as)
        rw [hsd] at hperm
        exact absurd hperm.symm.eq_nil (by simp)
      | cons w rest => exact ⟨w, rest, rfl⟩
    have hs1 : sortDesc (rules.filter (fun r => rule_matches facts r)) = w :: rest := by
      rw [hf]; exact hs
    rw [run_rules_eq_of_sort facts rules w rest hs1]
    simp [hs, Bind.bind, Except.bind]

/-- Claim C4 witness: `DEFAULT_RULES` carries only string field and
operator slots, so on the Scenario 4 facts the exception-transparent
engine returns `Except.ok` of the pure result. -/
theorem run_rules_total_witness :
    (∀ r ∈ DEFAULT_RULES, ∀ c ∈ r.conditions.getD [],
      condSlotsHashable c = true) ∧
    run_rulesE scenario4Facts DEFAULT_RULES =
      Except.ok (run_rules scenario4Facts DEFAULT_RULES) :=
  ⟨by decide, (run_rules_total scenario4Facts DEFAULT_RULES (by decide)).1⟩

end RuleEngine
